import Mathlib

/-!
Verification development for the SME loan reallocation marketplace.

The repository ships a React front-end (under `frontend/src`) that consumes a
REST backend. The backend engine itself (marketplace, swap matcher, credits
ledger, pricing simulator) is not part of the source tree; the specification
describes it from the API contract the front-end depends on. Definitions below
are therefore of two kinds: direct embeddings of front-end source files
(`creditsStore.ts`, `Simulator.tsx`) and engine operations modelled from the
specification, each marked as such in its doc comment.
-/

namespace SME

/-- Error taxonomy of the engine, as given by the specification (section 7). -/
inductive EngineError
  | NotFound
  | Conflict
  | InsufficientCredits
  | InvalidInput
  | PreconditionFailed
deriving DecidableEq

/-! ### Loan-ownership association list

Ownership maps a loan id to the id of the lender that currently owns it.
We embed it as an association list with first-match lookup and
replace-all-matches update, mirroring a keyed table. -/

/-- Look up the owner of a loan in an ownership table (first match wins). -/
def lookupOwner : List (Nat × Nat) → Nat → Option Nat
  | [], _ => none
  | (l, o) :: rest, loanId => if l = loanId then some o else lookupOwner rest loanId

/-- Replace the owner recorded for a loan (all matching entries). -/
def setOwner : List (Nat × Nat) → Nat → Nat → List (Nat × Nat)
  | [], _, _ => []
  | (l, o) :: rest, loanId, newOwner =>
      if l = loanId then (l, newOwner) :: setOwner rest loanId newOwner
      else (l, o) :: setOwner rest loanId newOwner

/-! ### Client-side credits store

Direct embedding of `frontend/src/stores/creditsStore.ts`: a zustand store
holding `balance`, `totalSpent` and `actionCount`, with actions `setBalance`
and `updateAfterSpend`. -/

/-- State of the client credits store (`CreditsState` in `creditsStore.ts`). -/
structure ClientCreditsState where
  balance : Int
  totalSpent : Int
  actionCount : Nat
deriving DecidableEq

/-- Initial client store state: 100 credits, nothing spent, no actions. -/
def initialClientCredits : ClientCreditsState :=
  { balance := 100, totalSpent := 0, actionCount := 0 }

/-- The `setBalance` action of the store: overwrite the balance. -/
def setBalanceClient (s : ClientCreditsState) (b : Int) : ClientCreditsState :=
  { s with balance := b }

/-- The `updateAfterSpend(cost, newBalance)` action of the store: the balance
is set to the server-supplied `newBalance`, `totalSpent` grows by `cost` and
`actionCount` by one, with no comparison between `cost` and the old balance. -/
def updateAfterSpend (s : ClientCreditsState) (cost newBalance : Int) : ClientCreditsState :=
  { balance := newBalance
    totalSpent := s.totalSpent + cost
    actionCount := s.actionCount + 1 }

/-! ### Swap proposal lifecycle -/

/-- Status of a swap proposal: created pending, terminal accepted or declined. -/
inductive PStatus
  | pending
  | accepted
  | declined
deriving DecidableEq

/-- Modelled from the spec: a `SwapProposal` (section 3) — proposer lender and
loan, counterparty lender, optional counterparty loan (may be chosen at accept
time), and a lifecycle status. The missing part is the backend swap engine;
only `swapsApi` HTTP calls appear in `frontend/src/services/api.ts`. -/
structure Proposal where
  pid : Nat
  proposerLender : Nat
  proposerLoan : Nat
  counterpartyLender : Nat
  counterpartyLoan : Option Nat
  status : PStatus
deriving DecidableEq

/-- Modelled from the spec: the mutable state the swap engine acts on — the
loan-ownership table and the pool of proposals. -/
structure SwapState where
  owners : List (Nat × Nat)
  proposals : List Proposal
deriving DecidableEq

/-- Find a proposal by id (first match). -/
def findProposal : List Proposal → Nat → Option Proposal
  | [], _ => none
  | p :: rest, pid => if p.pid = pid then some p else findProposal rest pid

/-- Status of the proposal with the given id, when it exists. -/
def statusOf (s : SwapState) (pid : Nat) : Option PStatus :=
  (findProposal s.proposals pid).map Proposal.status

/-- Owner of a loan in a swap state. -/
def ownerOf (s : SwapState) (loanId : Nat) : Option Nat :=
  lookupOwner s.owners loanId

/-- Whether a proposal references a loan, on either leg. -/
def referencesLoan (p : Proposal) (loanId : Nat) : Bool :=
  p.proposerLoan == loanId || p.counterpartyLoan == some loanId

/-- The counterparty loan an accept call resolves to: the one fixed at
creation, or else the `selected_loan_id` supplied at accept time. -/
def resolveCounterpartyLoan (p : Proposal) (selectedLoanId : Option Nat) : Option Nat :=
  match p.counterpartyLoan with
  | some l => some l
  | none => selectedLoanId

/-- Mark the proposal `pid` accepted, recording the resolved counterparty loan. -/
def markAccepted (ps : List Proposal) (pid cLoan : Nat) : List Proposal :=
  ps.map fun q =>
    if q.pid = pid then { q with status := PStatus.accepted, counterpartyLoan := some cLoan } else q

/-- Decline every pending proposal other than `pid` that references either
swapped loan. -/
def invalidateOthers (ps : List Proposal) (pid loanA loanB : Nat) : List Proposal :=
  ps.map fun q =>
    if q.pid ≠ pid ∧ q.status = PStatus.pending ∧
        (referencesLoan q loanA ∨ referencesLoan q loanB)
    then { q with status := PStatus.declined } else q

/-- Modelled from the spec: `acceptProposal(proposalId, lenderId,
selectedLoanId?)` (section 4.4). Only the counterparty lender may accept a
pending proposal; when no counterparty loan was fixed, `selectedLoanId` must
be supplied and owned by the counterparty at accept time; both swapped loans
must still be owned by their respective parties. On success the two loans
swap owners, the proposal becomes accepted, and every other pending proposal
referencing either loan is declined. Any failed precondition aborts with an
error before any mutation. -/
def acceptProposal (s : SwapState) (pid lenderId : Nat) (selectedLoanId : Option Nat) :
    Except EngineError SwapState :=
  match findProposal s.proposals pid with
  | none => Except.error EngineError.NotFound
  | some p =>
    if p.status ≠ PStatus.pending then Except.error EngineError.Conflict
    else if lenderId ≠ p.counterpartyLender then Except.error EngineError.Conflict
    else
      match resolveCounterpartyLoan p selectedLoanId with
      | none => Except.error EngineError.PreconditionFailed
      | some cLoan =>
        if ownerOf s p.proposerLoan ≠ some p.proposerLender then
          Except.error EngineError.Conflict
        else if ownerOf s cLoan ≠ some p.counterpartyLender then
          Except.error EngineError.Conflict
        else
          Except.ok
            { owners :=
                setOwner (setOwner s.owners p.proposerLoan p.counterpartyLender)
                  cLoan p.proposerLender
              proposals :=
                invalidateOthers (markAccepted s.proposals pid cLoan) pid
                  p.proposerLoan cLoan }

/-- Modelled from the spec: `createProposal` (section 4.4) — requires a fresh
proposal id and that the proposer currently owns the offered loan; the
counterparty loan may be left unspecified. The new proposal starts pending. -/
def createProposal (s : SwapState) (pid proposerLender proposerLoan counterpartyLender : Nat)
    (counterpartyLoan : Option Nat) : Except EngineError SwapState :=
  if findProposal s.proposals pid ≠ none then Except.error EngineError.Conflict
  else if lookupOwner s.owners proposerLoan ≠ some proposerLender then
    Except.error EngineError.Conflict
  else
    Except.ok
      { s with
          proposals :=
            s.proposals ++
              [{ pid := pid, proposerLender := proposerLender, proposerLoan := proposerLoan
                 counterpartyLender := counterpartyLender, counterpartyLoan := counterpartyLoan
                 status := PStatus.pending }] }

/-- Modelled from the spec: `declineProposal` (section 4.4) — either party may
decline while pending; declining a terminal proposal is a conflict. -/
def declineProposal (s : SwapState) (pid lenderId : Nat) : Except EngineError SwapState :=
  match findProposal s.proposals pid with
  | none => Except.error EngineError.NotFound
  | some p =>
    if p.status ≠ PStatus.pending then Except.error EngineError.Conflict
    else if lenderId ≠ p.proposerLender ∧ lenderId ≠ p.counterpartyLender then
      Except.error EngineError.Conflict
    else
      Except.ok
        { s with
            proposals :=
              s.proposals.map fun q =>
                if q.pid = pid then { q with status := PStatus.declined } else q }

/-- Events of the proposal state machine. -/
inductive SwapEvent
  | create (pid proposerLender proposerLoan counterpartyLender : Nat) (cLoan : Option Nat)
  | accept (pid lenderId : Nat) (sel : Option Nat)
  | decline (pid lenderId : Nat)
deriving DecidableEq

/-- One step of the proposal state machine. -/
def stepSwap (s : SwapState) : SwapEvent → Except EngineError SwapState
  | SwapEvent.create pid prL prLoan cpL cLoan => createProposal s pid prL prLoan cpL cLoan
  | SwapEvent.accept pid lid sel => acceptProposal s pid lid sel
  | SwapEvent.decline pid lid => declineProposal s pid lid

/-- Run a list of events; a step that returns an error leaves the state
unchanged (the failed precondition aborts before any mutation). -/
def runSwap (s : SwapState) : List SwapEvent → SwapState
  | [] => s
  | e :: es =>
    match stepSwap s e with
    | Except.ok s' => runSwap s' es
    | Except.error _ => runSwap s es

/-! ### Mutual-consent reveal -/

/-- Modelled from the spec: a marketplace listing pair for the reveal
protocol (sections 3 and 4.3) — the selling and buying lenders and one
reveal flag per side. The backend marketplace engine is absent from the
source; only the `marketplaceApi.reveal` HTTP call appears. -/
structure RevealPair where
  loanId : Nat
  sellerLender : Nat
  buyerLender : Nat
  sellerRevealed : Bool
  buyerRevealed : Bool
deriving DecidableEq

/-- Outcome of a reveal call: still pending, or the counterparty disclosed. -/
inductive RevealOutcome
  | pending
  | revealed (counterparty : Nat)
deriving DecidableEq

/-- The counterparty whose identity a reveal call would disclose to the
calling side. -/
def counterpartyOf (L : RevealPair) (isBuyer : Bool) : Nat :=
  if isBuyer then L.sellerLender else L.buyerLender

/-- Modelled from the spec: `reveal(loanId, lenderId, isBuyer)` (section 4.3).
The calling side's reveal flag is set (setting it again is a no-op, not an
error); the counterparty identity is disclosed only once both flags are set,
otherwise the call reports a pending state. -/
def reveal (L : RevealPair) (isBuyer : Bool) : RevealPair × RevealOutcome :=
  let L' := if isBuyer then { L with buyerRevealed := true }
            else { L with sellerRevealed := true }
  if L'.buyerRevealed && L'.sellerRevealed
  then (L', RevealOutcome.revealed (counterpartyOf L isBuyer))
  else (L', RevealOutcome.pending)

/-! ### Credits ledger -/

/-- Chargeable action types (spec sections 4.6 and 2). -/
inductive CreditAction
  | aiExplanation
  | revealIdentity
  | placeBid
  | expressInterest
  | proposeSwap
deriving DecidableEq

/-- Modelled from the spec: the published fixed cost table for chargeable
actions (section 4.6); the concrete amounts are policy constants, chosen here
to match the prices surfaced in the front-end (reveal 5, proposal 5,
details 1, accept-related actions 3). -/
def costOf : CreditAction → Nat
  | CreditAction.aiExplanation => 3
  | CreditAction.revealIdentity => 5
  | CreditAction.placeBid => 1
  | CreditAction.expressInterest => 1
  | CreditAction.proposeSwap => 5

/-- An append-only ledger entry (spec section 3, `CreditTransaction`). -/
structure CreditTransaction where
  lender : Nat
  action : CreditAction
  cost : Nat
  resultingBalance : Int
deriving DecidableEq

/-- Modelled from the spec: the credits ledger — per-lender balances and an
append-only, most-recent-first history. -/
structure CreditsLedger where
  balances : List (Nat × Int)
  history : List CreditTransaction
deriving DecidableEq

/-- Balance of a lender (absent lenders hold zero credits). -/
def creditBalance (bs : List (Nat × Int)) (lid : Nat) : Int :=
  match bs with
  | [] => 0
  | (l, b) :: rest => if l = lid then b else creditBalance rest lid

/-- Record a new balance for a lender. -/
def writeBalance (bs : List (Nat × Int)) (lid : Nat) (b : Int) : List (Nat × Int) :=
  match bs with
  | [] => [(lid, b)]
  | (l, x) :: rest => if l = lid then (lid, b) :: rest else (l, x) :: writeBalance rest lid b

/-- Modelled from the spec: `spend(lenderId, actionType, ...)` (section 4.6) —
fails with `InsufficientCredits` when the balance is below the action's cost,
otherwise atomically decrements the balance and appends one
`CreditTransaction`. -/
def spend (s : CreditsLedger) (lid : Nat) (a : CreditAction) :
    Except EngineError CreditsLedger :=
  let bal := creditBalance s.balances lid
  if bal < (costOf a : Int) then Except.error EngineError.InsufficientCredits
  else
    Except.ok
      { balances := writeBalance s.balances lid (bal - costOf a)
        history := { lender := lid, action := a, cost := costOf a
                     resultingBalance := bal - costOf a } :: s.history }

/-- A spend step of the ledger state machine: on failure the state is kept. -/
def spendAttempt (s : CreditsLedger) (lid : Nat) (a : CreditAction) : CreditsLedger :=
  match spend s lid a with
  | Except.ok s' => s'
  | Except.error _ => s

/-- Run a sequence of spend attempts. -/
def spendMany (s : CreditsLedger) : List (Nat × CreditAction) → CreditsLedger
  | [] => s
  | (lid, a) :: rest => spendMany (spendAttempt s lid a) rest

/-! ### Marketplace bidding -/

/-- A bid on a listed loan (spec section 3). -/
structure Bid where
  loanId : Nat
  bidder : Nat
  discountPercent : Int
deriving DecidableEq

/-- Modelled from the spec: the marketplace state — loan ownership, the set of
listed loan ids, and the accumulated bids. -/
structure MarketState where
  owners : List (Nat × Nat)
  listedLoans : List Nat
  bids : List Bid
deriving DecidableEq

/-- Modelled from the spec: `submitBid(loanId, bidderLenderId,
discountPercent)` (section 4.3) — rejected when the bidder owns the loan,
when the loan is not listed (an unknown loan is not listed), or when the
discount lies outside [0, 100]; otherwise one `Bid` is appended. Ownership is
never mutated. -/
def submitBid (s : MarketState) (loanId bidder : Nat) (discount : Int) :
    Except EngineError MarketState :=
  match lookupOwner s.owners loanId with
  | none => Except.error EngineError.NotFound
  | some owner =>
    if owner = bidder then Except.error EngineError.Conflict
    else if loanId ∉ s.listedLoans then Except.error EngineError.Conflict
    else if discount < 0 ∨ 100 < discount then Except.error EngineError.InvalidInput
    else
      Except.ok
        { s with bids := { loanId := loanId, bidder := bidder
                           discountPercent := discount } :: s.bids }

/-! ### Mismatch detector -/

/-- The four reallocation tiers (spec sections 3 and 4.2). -/
inductive ReallocationTier
  | STRONG
  | MODERATE
  | MINOR
  | NONE
deriving DecidableEq

/-- Policy threshold for the STRONG tier (spec leaves the value configurable). -/
def strongThreshold : Int := 30

/-- Policy threshold for the MODERATE tier. -/
def moderateThreshold : Int := 15

/-- Policy threshold for the MINOR tier. -/
def minorThreshold : Int := 5

/-- Modelled from the spec: the mismatch detector (section 4.2) — the
reallocation tier is computed from the fit gap
`best_match_fit − current_lender_fit` against the policy thresholds. -/
def reallocationTierOf (currentFit bestMatchFit : Int) : ReallocationTier :=
  if strongThreshold ≤ bestMatchFit - currentFit then ReallocationTier.STRONG
  else if moderateThreshold ≤ bestMatchFit - currentFit then ReallocationTier.MODERATE
  else if minorThreshold ≤ bestMatchFit - currentFit then ReallocationTier.MINOR
  else ReallocationTier.NONE

/-- A loan as the simulator and detector see it: identity, suggested sale
price, and the two fit scores (spec section 3). -/
structure EngineLoan where
  loanId : Nat
  suggestedPrice : Int
  currentLenderFit : Int
  bestMatchFit : Int
deriving DecidableEq

/-- Tier assigned to a loan by the mismatch detector. -/
def loanReallocationTier (l : EngineLoan) : ReallocationTier :=
  reallocationTierOf l.currentLenderFit l.bestMatchFit

/-! ### Pricing and settlement simulator -/

/-- The three simulated transaction types (spec section 4.5). -/
inductive TransactionType
  | sale
  | swap
  | swapCash
deriving DecidableEq

/-- Output of the simulator (spec section 4.5). -/
structure SimResult where
  outgoingLoanId : Nat
  incomingLoanId : Option Nat
  outgoingValue : Int
  incomingValue : Option Int
  valuationDelta : Int
  netSettlement : Int
  isZeroCash : Bool
  totalFitImprovement : Int
deriving DecidableEq

/-- Tolerance band within which a swap counts as zero-cash (policy constant). -/
def zeroCashTolerance : Int := 100

/-- Find a loan by id. -/
def findLoan (ls : List EngineLoan) (lid : Nat) : Option EngineLoan :=
  match ls with
  | [] => none
  | l :: rest => if l.loanId = lid then some l else findLoan rest lid

/-- Fit gain of one swap leg: the improvement from current fit to best fit. -/
def fitGain (l : EngineLoan) : Int := l.bestMatchFit - l.currentLenderFit

/-- Modelled from the spec: `calculate(transactionType, outgoingLoanId,
incomingLoanId?)` (section 4.5). For `sale` the net settlement is the
outgoing suggested price with no incoming leg; for `swap` the valuation delta
is outgoing minus incoming suggested price and `is_zero_cash` holds exactly
when the delta is within the tolerance band; `swap_cash` always surfaces the
cash leg. A pure computation: no state is read other than the loan table and
none is written. -/
def calculate (ls : List EngineLoan) (t : TransactionType) (outId : Nat)
    (inId : Option Nat) : Except EngineError SimResult :=
  match findLoan ls outId with
  | none => Except.error EngineError.NotFound
  | some lo =>
    match t with
    | TransactionType.sale =>
        Except.ok
          { outgoingLoanId := outId, incomingLoanId := none
            outgoingValue := lo.suggestedPrice, incomingValue := none
            valuationDelta := lo.suggestedPrice, netSettlement := lo.suggestedPrice
            isZeroCash := false, totalFitImprovement := fitGain lo }
    | TransactionType.swap =>
        match inId with
        | none => Except.error EngineError.PreconditionFailed
        | some iid =>
          match findLoan ls iid with
          | none => Except.error EngineError.NotFound
          | some li =>
              let delta := lo.suggestedPrice - li.suggestedPrice
              Except.ok
                { outgoingLoanId := outId, incomingLoanId := some iid
                  outgoingValue := lo.suggestedPrice
                  incomingValue := some li.suggestedPrice
                  valuationDelta := delta
                  netSettlement := if |delta| ≤ zeroCashTolerance then 0 else delta
                  isZeroCash := decide (|delta| ≤ zeroCashTolerance)
                  totalFitImprovement := fitGain lo + fitGain li }
    | TransactionType.swapCash =>
        match inId with
        | none => Except.error EngineError.PreconditionFailed
        | some iid =>
          match findLoan ls iid with
          | none => Except.error EngineError.NotFound
          | some li =>
              let delta := lo.suggestedPrice - li.suggestedPrice
              Except.ok
                { outgoingLoanId := outId, incomingLoanId := some iid
                  outgoingValue := lo.suggestedPrice
                  incomingValue := some li.suggestedPrice
                  valuationDelta := delta
                  netSettlement := delta
                  isZeroCash := false
                  totalFitImprovement := fitGain lo + fitGain li }

/-- Modelled from the spec: the full engine state the operations above act on
(section 5) — ownership and listings, the swap proposal pool, the credits
ledger and the loan table. -/
structure EngineState where
  market : MarketState
  proposals : List Proposal
  credits : CreditsLedger
  loans : List EngineLoan
deriving DecidableEq

/-- The simulator endpoint as a step of the request-response engine: it
returns its result alongside the state it ran against. -/
def calcStep (s : EngineState) (t : TransactionType) (outId : Nat) (inId : Option Nat) :
    EngineState × Except EngineError SimResult :=
  (s, calculate s.loans t outId inId)

/-! ### Simulator page state machine

Direct embedding of `frontend/src/pages/Simulator.tsx`: the component state
is the active tab and the two selected loan ids; the outgoing dropdown lists
every candidate, the incoming dropdown (rendered only off the `sale` tab)
lists every candidate except the currently selected outgoing loan, and the
Run Simulation button is disabled unless an outgoing loan is selected and,
off the `sale` tab, an incoming loan as well. Clicking Run posts
`calculate(activeTab, outgoingLoanId, incomingLoanId || undefined)`. -/

/-- The simulator page component state (`useState` hooks in `Simulator.tsx`). -/
structure SimPageState where
  activeTab : TransactionType
  outgoingLoanId : Option Nat
  incomingLoanId : Option Nat
deriving DecidableEq

/-- Initial page state: `swap` tab, no loans selected. -/
def simPageInit : SimPageState :=
  { activeTab := TransactionType.swap, outgoingLoanId := none, incomingLoanId := none }

/-- A calculate request as posted by `simulatorApi.calculate`. -/
structure CalcRequest where
  transactionType : TransactionType
  outgoingLoanId : Nat
  incomingLoanId : Option Nat
deriving DecidableEq

/-- User interactions available on the simulator page. -/
inductive SimEvent
  | setTab (t : TransactionType)
  | selectOutgoing (v : Option Nat)
  | selectIncoming (v : Option Nat)
  | clickRun
deriving DecidableEq

/-- One interaction step of the simulator page, against the candidate loan
list `cands`. `none` means the interaction is not offered by the rendered
page: an incoming option is only selectable when it is a candidate different
from the current outgoing selection, and Run only fires when enabled. A
fired Run emits the posted request. -/
def stepSim (cands : List Nat) (s : SimPageState) :
    SimEvent → Option (SimPageState × Option CalcRequest)
  | SimEvent.setTab t => some ({ s with activeTab := t }, none)
  | SimEvent.selectOutgoing none => some ({ s with outgoingLoanId := none }, none)
  | SimEvent.selectOutgoing (some c) =>
      if c ∈ cands then some ({ s with outgoingLoanId := some c }, none) else none
  | SimEvent.selectIncoming none =>
      if s.activeTab ≠ TransactionType.sale
      then some ({ s with incomingLoanId := none }, none) else none
  | SimEvent.selectIncoming (some c) =>
      if s.activeTab ≠ TransactionType.sale ∧ c ∈ cands ∧ some c ≠ s.outgoingLoanId
      then some ({ s with incomingLoanId := some c }, none) else none
  | SimEvent.clickRun =>
      match s.outgoingLoanId with
      | none => none
      | some outId =>
          if s.activeTab = TransactionType.sale ∨ s.incomingLoanId ≠ none
          then some (s, some { transactionType := s.activeTab, outgoingLoanId := outId
                               incomingLoanId := s.incomingLoanId })
          else none

/-- Run a sequence of interactions from a page state, collecting every
calculate request the page posts; interactions the page does not offer are
skipped. -/
def runSim (cands : List Nat) (s : SimPageState) :
    List SimEvent → SimPageState × List CalcRequest
  | [] => (s, [])
  | e :: es =>
    match stepSim cands s e with
    | none => runSim cands s es
    | some (s', none) => runSim cands s' es
    | some (s', some r) =>
        let res := runSim cands s' es
        (res.1, r :: res.2)

/-! ### Lemmas on the ownership table and proposal lookups -/

theorem lookupOwner_setOwner (ow : List (Nat × Nat)) (l x l' : Nat) :
    lookupOwner (setOwner ow l x) l' =
      if l' = l then (lookupOwner ow l).map (fun _ => x) else lookupOwner ow l' := by
  induction ow with
  | nil =>
      simp only [setOwner, lookupOwner]
      split <;> rfl
  | cons hd tl ih =>
      obtain ⟨k, v⟩ := hd
      by_cases hkl : k = l
      · subst hkl
        by_cases hl' : l' = k
        · subst hl'
          simp [setOwner, lookupOwner, ih]
        · simp [setOwner, lookupOwner, hl', ih, Ne.symm hl']
      · by_cases hl' : l' = k
        · subst hl'
          simp [setOwner, lookupOwner, hkl, Ne.symm hkl]
        · simp [setOwner, lookupOwner, hkl, Ne.symm hl', hl', ih]

theorem lookupOwner_setOwner_self (ow : List (Nat × Nat)) (l x o : Nat)
    (h : lookupOwner ow l = some o) :
    lookupOwner (setOwner ow l x) l = some x := by
  rw [lookupOwner_setOwner, if_pos rfl, h]
  rfl

theorem lookupOwner_setOwner_other (ow : List (Nat × Nat)) (l x l' : Nat)
    (h : l' ≠ l) :
    lookupOwner (setOwner ow l x) l' = lookupOwner ow l' := by
  rw [lookupOwner_setOwner, if_neg h]

theorem findProposal_map_pid (f : Proposal → Proposal) (hf : ∀ q, (f q).pid = q.pid)
    (ps : List Proposal) (pid : Nat) :
    findProposal (ps.map f) pid = (findProposal ps pid).map f := by
  induction ps with
  | nil => rfl
  | cons q rest ih =>
      by_cases hq : q.pid = pid
      · simp [findProposal, hf, hq]
      · simp [findProposal, hf, hq, ih]

theorem findProposal_some_pid (ps : List Proposal) (pid : Nat) (q : Proposal)
    (h : findProposal ps pid = some q) : q.pid = pid := by
  induction ps with
  | nil => simp [findProposal] at h
  | cons r rest ih =>
      rw [findProposal] at h
      by_cases hr : r.pid = pid
      · rw [if_pos hr] at h
        injection h with h2
        subst h2
        exact hr
      · rw [if_neg hr] at h
        exact ih h

theorem markAccepted_preserves_pid (pid c : Nat) (q : Proposal) :
    ((fun q => if q.pid = pid
        then { q with status := PStatus.accepted, counterpartyLoan := some c } else q) q).pid
      = q.pid := by
  by_cases h : q.pid = pid <;> simp [h]

theorem invalidate_preserves_pid (pid a b : Nat) (q : Proposal) :
    ((fun q =>
        if q.pid ≠ pid ∧ q.status = PStatus.pending ∧
            (referencesLoan q a ∨ referencesLoan q b)
        then { q with status := PStatus.declined } else q) q).pid = q.pid := by
  by_cases h : q.pid ≠ pid ∧ q.status = PStatus.pending ∧
      (referencesLoan q a ∨ referencesLoan q b) <;> simp [h]

theorem findProposal_after_accept (ps : List Proposal) (pid a b c : Nat) (p : Proposal)
    (hfp : findProposal ps pid = some p) :
    findProposal (invalidateOthers (markAccepted ps pid c) pid a b) pid =
      some { p with status := PStatus.accepted, counterpartyLoan := some c } := by
  have hp : p.pid = pid := findProposal_some_pid ps pid p hfp
  rw [invalidateOthers, findProposal_map_pid _ (invalidate_preserves_pid pid a b)]
  rw [markAccepted, findProposal_map_pid _ (markAccepted_preserves_pid pid c)]
  rw [hfp]
  simp [hp]

theorem acceptProposal_ok_inv (s : SwapState) (pid lid : Nat) (sel : Option Nat)
    (s' : SwapState) (h : acceptProposal s pid lid sel = Except.ok s') :
    ∃ p cLoan,
      findProposal s.proposals pid = some p ∧
      p.status = PStatus.pending ∧
      lid = p.counterpartyLender ∧
      resolveCounterpartyLoan p sel = some cLoan ∧
      ownerOf s p.proposerLoan = some p.proposerLender ∧
      ownerOf s cLoan = some p.counterpartyLender ∧
      s' = { owners :=
               setOwner (setOwner s.owners p.proposerLoan p.counterpartyLender)
                 cLoan p.proposerLender
             proposals :=
               invalidateOthers (markAccepted s.proposals pid cLoan) pid
                 p.proposerLoan cLoan } := by
  unfold acceptProposal at h
  split at h
  · simp at h
  · rename_i p hfp
    split at h
    · simp at h
    · rename_i h1
      split at h
      · simp at h
      · rename_i h2
        split at h
        · simp at h
        · rename_i cLoan hres
          split at h
          · simp at h
          · rename_i h3
            split at h
            · simp at h
            · rename_i h4
              injection h with h5
              exact ⟨p, cLoan, hfp, not_not.mp h1, not_not.mp h2, hres,
                not_not.mp h3, not_not.mp h4, h5.symm⟩

/-- C1: `acceptProposal` is atomic. For every proposal and every accept call,
either an error is returned (and, the operation being state-passing, the
caller keeps the unchanged state), or the call succeeds and in the resulting
state the ownership of both loans is swapped, the proposal has become
accepted, and no other loan changed owner. Moreover, in the proposal state
machine, any step that changes ownership at all is an accept step whose
proposal ends up accepted, so ownership never changes while the proposal is
not accepted, and there is no state with exactly one of the two loans moved. -/
theorem acceptProposal_atomic :
    (∀ (s : SwapState) (pid lenderId : Nat) (sel : Option Nat),
      (∃ e, acceptProposal s pid lenderId sel = Except.error e) ∨
      (∃ s' p cLoan,
        acceptProposal s pid lenderId sel = Except.ok s' ∧
        findProposal s.proposals pid = some p ∧
        resolveCounterpartyLoan p sel = some cLoan ∧
        ownerOf s p.proposerLoan = some p.proposerLender ∧
        ownerOf s cLoan = some p.counterpartyLender ∧
        ownerOf s' p.proposerLoan = some p.counterpartyLender ∧
        ownerOf s' cLoan = some p.proposerLender ∧
        statusOf s' pid = some PStatus.accepted ∧
        ∀ loanId, loanId ≠ p.proposerLoan → loanId ≠ cLoan →
          ownerOf s' loanId = ownerOf s loanId)) ∧
    (∀ (s : SwapState) (e : SwapEvent) (s' : SwapState),
      stepSwap s e = Except.ok s' → s'.owners ≠ s.owners →
      ∃ pid lenderId sel, e = SwapEvent.accept pid lenderId sel ∧
        statusOf s' pid = some PStatus.accepted) := by
  constructor
  · intro s pid lenderId sel
    cases hacc : acceptProposal s pid lenderId sel with
    | error e => exact Or.inl ⟨e, rfl⟩
    | ok s' =>
        obtain ⟨p, cLoan, hfp, hpend, hlid, hres, hownA, hownB, hs'⟩ :=
          acceptProposal_ok_inv s pid lenderId sel s' hacc
        have hA0 : lookupOwner s.owners p.proposerLoan = some p.proposerLender := hownA
        have hB0 : lookupOwner s.owners cLoan = some p.counterpartyLender := hownB
        have hInner : lookupOwner (setOwner s.owners p.proposerLoan p.counterpartyLender)
            p.proposerLoan = some p.counterpartyLender :=
          lookupOwner_setOwner_self _ _ _ _ hA0
        refine Or.inr ⟨s', p, cLoan, rfl, hfp, hres, hownA, hownB, ?_, ?_, ?_, ?_⟩
        · subst hs'
          show lookupOwner
            (setOwner (setOwner s.owners p.proposerLoan p.counterpartyLender)
              cLoan p.proposerLender) p.proposerLoan = some p.counterpartyLender
          by_cases hAB : p.proposerLoan = cLoan
          · have hLL : p.proposerLender = p.counterpartyLender := by
              rw [← hAB] at hB0
              rw [hA0] at hB0
              injection hB0
            rw [← hAB]
            rw [lookupOwner_setOwner_self _ _ _ _ hInner, hLL]
          · rw [lookupOwner_setOwner_other _ _ _ _ hAB]
            exact hInner
        · subst hs'
          show lookupOwner
            (setOwner (setOwner s.owners p.proposerLoan p.counterpartyLender)
              cLoan p.proposerLender) cLoan = some p.proposerLender
          by_cases hAB : cLoan = p.proposerLoan
          · subst hAB
            exact lookupOwner_setOwner_self _ _ _ _ hInner
          · have hB1 : lookupOwner (setOwner s.owners p.proposerLoan p.counterpartyLender)
                cLoan = some p.counterpartyLender := by
              rw [lookupOwner_setOwner_other _ _ _ _ hAB]
              exact hB0
            exact lookupOwner_setOwner_self _ _ _ _ hB1
        · subst hs'
          show (findProposal
            (invalidateOthers (markAccepted s.proposals pid cLoan) pid
              p.proposerLoan cLoan) pid).map Proposal.status = some PStatus.accepted
          rw [findProposal_after_accept s.proposals pid p.proposerLoan cLoan cLoan p hfp]
          rfl
        · intro loanId hA hB
          subst hs'
          show lookupOwner
            (setOwner (setOwner s.owners p.proposerLoan p.counterpartyLender)
              cLoan p.proposerLender) loanId = lookupOwner s.owners loanId
          rw [lookupOwner_setOwner_other _ _ _ _ hB,
            lookupOwner_setOwner_other _ _ _ _ hA]
  · intro s e s' hok hne
    cases e with
    | create pid prL prLoan cpL cLoan =>
        exfalso
        apply hne
        simp only [stepSwap] at hok
        unfold createProposal at hok
        split at hok
        · simp at hok
        · split at hok
          · simp at hok
          · injection hok with h3
            rw [← h3]
    | decline pid lid =>
        exfalso
        apply hne
        simp only [stepSwap] at hok
        unfold declineProposal at hok
        split at hok
        · simp at hok
        · split at hok
          · simp at hok
          · split at hok
            · simp at hok
            · injection hok with h3
              rw [← h3]
    | accept pid lid sel =>
        obtain ⟨p, cLoan, hfp, _, _, _, _, _, hs'⟩ :=
          acceptProposal_ok_inv s pid lid sel s' hok
        refine ⟨pid, lid, sel, rfl, ?_⟩
        subst hs'
        show (findProposal
          (invalidateOthers (markAccepted s.proposals pid cLoan) pid
            p.proposerLoan cLoan) pid).map Proposal.status = some PStatus.accepted
        rw [findProposal_after_accept s.proposals pid p.proposerLoan cLoan cLoan p hfp]
        rfl

/-- Witness for C1: a concrete accepted swap, with the machine-level part of
the theorem applied to the step that performed it. -/
theorem acceptProposal_atomic_witness :
    ∃ pid lenderId sel,
      SwapEvent.accept 1 20 none = SwapEvent.accept pid lenderId sel ∧
      statusOf ⟨[(1, 20), (2, 10)], [⟨1, 10, 1, 20, some 2, PStatus.accepted⟩]⟩ pid
        = some PStatus.accepted :=
  acceptProposal_atomic.2
    ⟨[(1, 10), (2, 20)], [⟨1, 10, 1, 20, some 2, PStatus.pending⟩]⟩
    (SwapEvent.accept 1 20 none)
    ⟨[(1, 20), (2, 10)], [⟨1, 10, 1, 20, some 2, PStatus.accepted⟩]⟩
    (by rfl) (by decide)

/-- C2 (counterexample): the reachable-state invariant claimed — no loan ever
appears in two proposals that are both accepted — fails. Starting from two
loans and no proposals, loan 1 is proposed and swapped, then proposed and
swapped back by its new owner; afterwards two distinct proposals referencing
loan 1 are both accepted. -/
theorem two_accepted_proposals_same_loan :
    ∃ q1 ∈ (runSwap ⟨[(1, 10), (2, 20)], []⟩
      [SwapEvent.create 1 10 1 20 (some 2), SwapEvent.accept 1 20 none,
       SwapEvent.create 2 20 1 10 (some 2), SwapEvent.accept 2 10 none]).proposals,
    ∃ q2 ∈ (runSwap ⟨[(1, 10), (2, 20)], []⟩
      [SwapEvent.create 1 10 1 20 (some 2), SwapEvent.accept 1 20 none,
       SwapEvent.create 2 20 1 10 (some 2), SwapEvent.accept 2 10 none]).proposals,
      q1.pid ≠ q2.pid ∧ q1.status = PStatus.accepted ∧ q2.status = PStatus.accepted ∧
      referencesLoan q1 1 = true ∧ referencesLoan q2 1 = true := by
  decide

/-- C2 (amended): after any successful `acceptProposal`, no other proposal
that references either of the two swapped loans remains pending, and every
other proposal that was pending and references either loan has been set to
declined. The claimed reachable-state invariant that no loan appears in two
accepted proposals does not hold (a loan swapped twice over its lifetime ends
up referenced by two accepted proposals); what holds is this per-acceptance
termination of all other pending proposals on the two loans. -/
theorem accept_invalidates_pending (s : SwapState) (pid lid : Nat) (sel : Option Nat)
    (s' : SwapState) (p : Proposal) (cLoan : Nat)
    (hok : acceptProposal s pid lid sel = Except.ok s')
    (hfp : findProposal s.proposals pid = some p)
    (hres : resolveCounterpartyLoan p sel = some cLoan) :
    (∀ q ∈ s'.proposals, q.pid ≠ pid →
        (referencesLoan q p.proposerLoan = true ∨ referencesLoan q cLoan = true) →
        q.status ≠ PStatus.pending) ∧
    (∀ q ∈ s.proposals, q.pid ≠ pid → q.status = PStatus.pending →
        (referencesLoan q p.proposerLoan = true ∨ referencesLoan q cLoan = true) →
        { q with status := PStatus.declined } ∈ s'.proposals) := by
  obtain ⟨p2, cLoan2, hfp2, hpend2, hlid2, hres2, hownA2, hownB2, hs'⟩ :=
    acceptProposal_ok_inv s pid lid sel s' hok
  rw [hfp] at hfp2
  injection hfp2 with hpp
  subst hpp
  rw [hres] at hres2
  injection hres2 with hcc
  subst hcc
  subst hs'
  constructor
  · intro q hq hqpid hrefs
    simp only [invalidateOthers, markAccepted, List.map_map] at hq
    obtain ⟨a, ha, hga⟩ := List.mem_map.mp hq
    simp only [Function.comp] at hga
    by_cases hapid : a.pid = pid
    · exfalso
      apply hqpid
      rw [← hga]
      simp [hapid]
    · rw [if_neg hapid] at hga
      by_cases hg : a.pid ≠ pid ∧ a.status = PStatus.pending ∧
          (referencesLoan a p.proposerLoan = true ∨ referencesLoan a cLoan = true)
      · rw [if_pos hg] at hga
        rw [← hga]
        simp
      · rw [if_neg hg] at hga
        subst hga
        intro hqpend
        exact hg ⟨hqpid, hqpend, hrefs⟩
  · intro q hq hqpid hqpend hrefs
    simp only [invalidateOthers, markAccepted, List.map_map]
    refine List.mem_map.mpr ⟨q, hq, ?_⟩
    simp only [Function.comp]
    rw [if_neg hqpid, if_pos ⟨hqpid, hqpend, hrefs⟩]

/-- Witness for C2: a concrete acceptance in a state holding one further
pending proposal on the swapped loan; the amended theorem yields that the
other proposal is declined in the post state. -/
theorem accept_invalidates_pending_witness :
    ({ pid := 7, proposerLender := 30, proposerLoan := 1, counterpartyLender := 10
       counterpartyLoan := none, status := PStatus.pending : Proposal }.status
        = PStatus.pending) ∧
    ({ pid := 7, proposerLender := 30, proposerLoan := 1, counterpartyLender := 10
       counterpartyLoan := none, status := PStatus.declined : Proposal } ∈
      (SwapState.proposals
        ⟨[(1, 20), (2, 10)],
         [⟨1, 10, 1, 20, some 2, PStatus.accepted⟩,
          ⟨7, 30, 1, 10, none, PStatus.declined⟩]⟩)) :=
  ⟨rfl,
    (accept_invalidates_pending
      ⟨[(1, 10), (2, 20)],
       [⟨1, 10, 1, 20, some 2, PStatus.pending⟩, ⟨7, 30, 1, 10, none, PStatus.pending⟩]⟩
      1 20 none
      ⟨[(1, 20), (2, 10)],
       [⟨1, 10, 1, 20, some 2, PStatus.accepted⟩, ⟨7, 30, 1, 10, none, PStatus.declined⟩]⟩
      ⟨1, 10, 1, 20, some 2, PStatus.pending⟩ 2
      (by rfl) (by rfl) (by rfl)).2
      ⟨7, 30, 1, 10, none, PStatus.pending⟩ (by decide) (by decide) (by decide)
      (Or.inl (by decide))⟩

/-- C9: for every call `updateAfterSpend(cost, newBalance)` on the client
credits store and every prior store state, the resulting state has
`balance = newBalance`, `totalSpent = old totalSpent + cost` and
`actionCount = old actionCount + 1`, unconditionally: the store applies the
supplied `newBalance` without comparing `cost` to the previous balance, so
the client-side balance invariant relies entirely on the server value. -/
theorem updateAfterSpend_unconditional (s : ClientCreditsState) (cost newBalance : Int) :
    (updateAfterSpend s cost newBalance).balance = newBalance ∧
    (updateAfterSpend s cost newBalance).totalSpent = s.totalSpent + cost ∧
    (updateAfterSpend s cost newBalance).actionCount = s.actionCount + 1 :=
  ⟨rfl, rfl, rfl⟩

/-- C3: reveal is idempotent per party and gates disclosure on mutual
consent. Calling reveal twice by the same party yields exactly the state and
response of calling it once; the counterparty identity is disclosed in the
response if and only if, after the call, both the buyer-side and the
seller-side reveal flags are set; with only one side revealed the call
returns a pending state. -/
theorem reveal_idempotent_mutual (L : RevealPair) (isBuyer : Bool) :
    reveal (reveal L isBuyer).1 isBuyer = reveal L isBuyer ∧
    ((reveal L isBuyer).2 = RevealOutcome.revealed (counterpartyOf L isBuyer) ↔
      ((reveal L isBuyer).1.buyerRevealed && (reveal L isBuyer).1.sellerRevealed) = true) ∧
    (((reveal L isBuyer).1.buyerRevealed && (reveal L isBuyer).1.sellerRevealed) = false →
      (reveal L isBuyer).2 = RevealOutcome.pending) := by
  cases isBuyer <;> cases hB : L.buyerRevealed <;> cases hS : L.sellerRevealed <;>
    simp [reveal, counterpartyOf, hB, hS]

/-- Witness for C3: with neither side revealed, a buyer-side reveal leaves the
pair undisclosed and the response pending. -/
theorem reveal_idempotent_mutual_witness :
    (reveal { loanId := 1, sellerLender := 10, buyerLender := 20
              sellerRevealed := false, buyerRevealed := false } true).2
      = RevealOutcome.pending :=
  (reveal_idempotent_mutual
    { loanId := 1, sellerLender := 10, buyerLender := 20
      sellerRevealed := false, buyerRevealed := false } true).2.2 (by decide)

theorem creditBalance_writeBalance (bs : List (Nat × Int)) (lid : Nat) (b : Int) (l : Nat) :
    creditBalance (writeBalance bs lid b) l = if l = lid then b else creditBalance bs l := by
  induction bs with
  | nil =>
      simp only [writeBalance, creditBalance]
      by_cases h : l = lid
      · simp [h]
      · simp [h, Ne.symm h]
  | cons hd tl ih =>
      obtain ⟨k, v⟩ := hd
      by_cases hk : k = lid
      · subst hk
        by_cases hl : l = k
        · subst hl
          simp [writeBalance, creditBalance]
        · simp [writeBalance, creditBalance, hl, Ne.symm hl]
      · by_cases hl : l = k
        · subst hl
          simp [writeBalance, creditBalance, hk, Ne.symm hk]
        · simp [writeBalance, creditBalance, hk, Ne.symm hl, hl, ih]

theorem spendAttempt_nonneg (s : CreditsLedger) (lid : Nat) (a : CreditAction)
    (hs : ∀ l, 0 ≤ creditBalance s.balances l) :
    ∀ l, 0 ≤ creditBalance (spendAttempt s lid a).balances l := by
  intro l
  unfold spendAttempt spend
  by_cases hb : creditBalance s.balances lid < (costOf a : Int)
  · rw [if_pos hb]
    exact hs l
  · rw [if_neg hb]
    show 0 ≤ creditBalance
      (writeBalance s.balances lid (creditBalance s.balances lid - costOf a)) l
    rw [creditBalance_writeBalance]
    by_cases hl : l = lid
    · rw [if_pos hl]
      have := not_lt.mp hb
      omega
    · rw [if_neg hl]
      exact hs l

theorem spendMany_nonneg (attempts : List (Nat × CreditAction)) (s : CreditsLedger)
    (hs : ∀ l, 0 ≤ creditBalance s.balances l) :
    ∀ l, 0 ≤ creditBalance (spendMany s attempts).balances l := by
  induction attempts generalizing s with
  | nil => exact hs
  | cons hd tl ih =>
      obtain ⟨lid, a⟩ := hd
      exact ih (spendAttempt s lid a) (spendAttempt_nonneg s lid a hs)

/-- C4: spending below balance fails with `InsufficientCredits` and leaves
the ledger unchanged, so repeated overdraft attempts keep failing; an
affordable spend decrements the balance by the action cost and appends
exactly one `CreditTransaction`; and from any state with no negative balance,
no sequence of spend attempts can drive any balance negative. -/
theorem spend_safe :
    (∀ (s : CreditsLedger) (lid : Nat) (a : CreditAction),
      creditBalance s.balances lid < (costOf a : Int) →
        spend s lid a = Except.error EngineError.InsufficientCredits ∧
        spendAttempt s lid a = s) ∧
    (∀ (s : CreditsLedger) (lid : Nat) (a : CreditAction),
      (costOf a : Int) ≤ creditBalance s.balances lid →
        ∃ s', spend s lid a = Except.ok s' ∧
          creditBalance s'.balances lid = creditBalance s.balances lid - costOf a ∧
          s'.history =
            { lender := lid, action := a, cost := costOf a
              resultingBalance := creditBalance s.balances lid - costOf a } :: s.history) ∧
    (∀ (s : CreditsLedger), (∀ l, 0 ≤ creditBalance s.balances l) →
      ∀ (attempts : List (Nat × CreditAction)) (l : Nat),
        0 ≤ creditBalance (spendMany s attempts).balances l) := by
  refine ⟨?_, ?_, ?_⟩
  · intro s lid a hb
    constructor
    · unfold spend
      rw [if_pos hb]
    · unfold spendAttempt spend
      rw [if_pos hb]
  · intro s lid a hb
    refine ⟨{ balances := writeBalance s.balances lid (creditBalance s.balances lid - costOf a)
              history := { lender := lid, action := a, cost := costOf a
                           resultingBalance := creditBalance s.balances lid - costOf a }
                :: s.history }, ?_, ?_, rfl⟩
    · unfold spend
      rw [if_neg (not_lt.mpr hb)]
    · show creditBalance
        (writeBalance s.balances lid (creditBalance s.balances lid - costOf a)) lid
          = creditBalance s.balances lid - costOf a
      rw [creditBalance_writeBalance, if_pos rfl]
  · intro s hs attempts l
    exact spendMany_nonneg attempts s hs l

/-- Witness for C4: a lender with 3 credits cannot afford a 5-credit reveal;
the attempt leaves the ledger unchanged, while a sequence of cheap actions
keeps the balance nonnegative. -/
theorem spend_safe_witness :
    spend ⟨[(1, 3)], []⟩ 1 CreditAction.revealIdentity
        = Except.error EngineError.InsufficientCredits ∧
    spendAttempt ⟨[(1, 3)], []⟩ 1 CreditAction.revealIdentity = ⟨[(1, 3)], []⟩ ∧
    0 ≤ creditBalance
      (spendMany ⟨[(1, 3)], []⟩
        [(1, CreditAction.placeBid), (1, CreditAction.revealIdentity),
         (1, CreditAction.placeBid), (1, CreditAction.placeBid),
         (1, CreditAction.placeBid)]).balances 1 := by
  refine ⟨(spend_safe.1 ⟨[(1, 3)], []⟩ 1 CreditAction.revealIdentity (by decide)).1,
    (spend_safe.1 ⟨[(1, 3)], []⟩ 1 CreditAction.revealIdentity (by decide)).2,
    spend_safe.2.2 ⟨[(1, 3)], []⟩ ?_ _ 1⟩
  intro l
  show (0 : Int) ≤ creditBalance [(1, 3)] l
  unfold creditBalance
  by_cases h : 1 = l
  · rw [if_pos h]
    decide
  · rw [if_neg h]
    unfold creditBalance
    decide

/-- C5: for every calculate call of type swap on two existing loans, the
result satisfies `valuation_delta = outgoing_value − incoming_value` on the
two suggested prices, and `is_zero_cash` holds if and only if the delta is
within the fixed tolerance of zero. -/
theorem calculate_swap_delta (ls : List EngineLoan) (outId inId : Nat) (lo li : EngineLoan)
    (ho : findLoan ls outId = some lo) (hi : findLoan ls inId = some li) :
    ∃ r, calculate ls TransactionType.swap outId (some inId) = Except.ok r ∧
      r.outgoingValue = lo.suggestedPrice ∧
      r.incomingValue = some li.suggestedPrice ∧
      r.valuationDelta = lo.suggestedPrice - li.suggestedPrice ∧
      (r.isZeroCash = true ↔ |r.valuationDelta| ≤ zeroCashTolerance) := by
  refine ⟨{ outgoingLoanId := outId, incomingLoanId := some inId
            outgoingValue := lo.suggestedPrice, incomingValue := some li.suggestedPrice
            valuationDelta := lo.suggestedPrice - li.suggestedPrice
            netSettlement :=
              if |lo.suggestedPrice - li.suggestedPrice| ≤ zeroCashTolerance then 0
              else lo.suggestedPrice - li.suggestedPrice
            isZeroCash := decide (|lo.suggestedPrice - li.suggestedPrice| ≤ zeroCashTolerance)
            totalFitImprovement := fitGain lo + fitGain li }, ?_, rfl, rfl, rfl, ?_⟩
  · simp only [calculate, ho, hi]
  · show decide (|lo.suggestedPrice - li.suggestedPrice| ≤ zeroCashTolerance) = true ↔
      |lo.suggestedPrice - li.suggestedPrice| ≤ zeroCashTolerance
    exact decide_eq_true_iff

/-- Witness for C5: a concrete swap between two loans priced 500 and 450
yields delta 50, inside the tolerance band. -/
theorem calculate_swap_delta_witness :
    ∃ r, calculate [⟨1, 500, 40, 70⟩, ⟨2, 450, 35, 80⟩] TransactionType.swap 1 (some 2)
        = Except.ok r ∧
      r.outgoingValue = (500 : Int) ∧
      r.incomingValue = some (450 : Int) ∧
      r.valuationDelta = (500 : Int) - 450 ∧
      (r.isZeroCash = true ↔ |r.valuationDelta| ≤ zeroCashTolerance) :=
  calculate_swap_delta [⟨1, 500, 40, 70⟩, ⟨2, 450, 35, 80⟩] 1 2
    ⟨1, 500, 40, 70⟩ ⟨2, 450, 35, 80⟩ (by rfl) (by rfl)

/-- C6: the simulator calculate endpoint is deterministic and
side-effect-free. Two consecutive calls with identical inputs against the
same engine state return identical results, and neither call changes loan
ownership, listings, bids, proposals, or the credits ledger. -/
theorem calculate_pure (s : EngineState) (t : TransactionType) (outId : Nat)
    (inId : Option Nat) :
    (calcStep s t outId inId).2 =
      (calcStep (calcStep s t outId inId).1 t outId inId).2 ∧
    (calcStep s t outId inId).1.market.owners = s.market.owners ∧
    (calcStep s t outId inId).1.market.listedLoans = s.market.listedLoans ∧
    (calcStep s t outId inId).1.market.bids = s.market.bids ∧
    (calcStep s t outId inId).1.proposals = s.proposals ∧
    (calcStep s t outId inId).1.credits = s.credits ∧
    (calcStep (calcStep s t outId inId).1 t outId inId).1 = s :=
  ⟨rfl, rfl, rfl, rfl, rfl, rfl, rfl⟩

/-- C7: `submitBid` rejects a bid from the loan owner, a bid on an unlisted
(or unknown) loan, and a discount outside [0, 100]; otherwise it appends
exactly one bid to the listing; and in no case does it change ownership. -/
theorem submitBid_guards :
    (∀ (s : MarketState) (loanId bidder : Nat) (d : Int),
      lookupOwner s.owners loanId = some bidder →
        submitBid s loanId bidder d = Except.error EngineError.Conflict) ∧
    (∀ (s : MarketState) (loanId bidder : Nat) (d : Int),
      loanId ∉ s.listedLoans → ∃ e, submitBid s loanId bidder d = Except.error e) ∧
    (∀ (s : MarketState) (loanId bidder : Nat) (d : Int),
      d < 0 ∨ 100 < d → ∃ e, submitBid s loanId bidder d = Except.error e) ∧
    (∀ (s : MarketState) (loanId bidder : Nat) (d : Int) (owner : Nat),
      lookupOwner s.owners loanId = some owner → owner ≠ bidder →
      loanId ∈ s.listedLoans → ¬(d < 0 ∨ 100 < d) →
        submitBid s loanId bidder d =
          Except.ok { s with bids := ⟨loanId, bidder, d⟩ :: s.bids }) ∧
    (∀ (s : MarketState) (loanId bidder : Nat) (d : Int) (s' : MarketState),
      submitBid s loanId bidder d = Except.ok s' →
        s'.owners = s.owners ∧ s'.listedLoans = s.listedLoans) := by
  refine ⟨?_, ?_, ?_, ?_, ?_⟩
  · intro s loanId bidder d hown
    simp [submitBid, hown]
  · intro s loanId bidder d hnl
    cases hown : lookupOwner s.owners loanId with
    | none => exact ⟨EngineError.NotFound, by simp [submitBid, hown]⟩
    | some owner =>
        by_cases hob : owner = bidder
        · exact ⟨EngineError.Conflict, by simp [submitBid, hown, hob]⟩
        · exact ⟨EngineError.Conflict, by simp [submitBid, hown, hob, hnl]⟩
  · intro s loanId bidder d hd
    cases hown : lookupOwner s.owners loanId with
    | none => exact ⟨EngineError.NotFound, by simp [submitBid, hown]⟩
    | some owner =>
        by_cases hob : owner = bidder
        · exact ⟨EngineError.Conflict, by simp [submitBid, hown, hob]⟩
        · by_cases hnl : loanId ∉ s.listedLoans
          · exact ⟨EngineError.Conflict, by simp [submitBid, hown, hob, hnl]⟩
          · exact ⟨EngineError.InvalidInput,
              by simp [submitBid, hown, hob, not_not.mp hnl, hd]⟩
  · intro s loanId bidder d owner hown hob hl hd
    simp [submitBid, hown, hob, hl, hd]
  · intro s loanId bidder d s' h
    unfold submitBid at h
    split at h
    · simp at h
    · split at h
      · simp at h
      · split at h
        · simp at h
        · split at h
          · simp at h
          · injection h with h2
            rw [← h2]
            exact ⟨rfl, rfl⟩

/-- Witness for C7: concrete guard checks — the owner of loan 1 cannot bid
for it, a 120 percent discount is rejected, and a valid bid by another lender
appends one bid without touching ownership. -/
theorem submitBid_guards_witness :
    submitBid ⟨[(1, 10)], [1], []⟩ 1 10 5 = Except.error EngineError.Conflict ∧
    (∃ e, submitBid ⟨[(1, 10)], [1], []⟩ 1 20 120 = Except.error e) ∧
    submitBid ⟨[(1, 10)], [1], []⟩ 1 20 8 =
      Except.ok ⟨[(1, 10)], [1], [⟨1, 20, 8⟩]⟩ :=
  ⟨submitBid_guards.1 ⟨[(1, 10)], [1], []⟩ 1 10 5 (by rfl),
   submitBid_guards.2.2.1 ⟨[(1, 10)], [1], []⟩ 1 20 120 (by decide),
   submitBid_guards.2.2.2.1 ⟨[(1, 10)], [1], []⟩ 1 20 8 10 (by rfl) (by decide)
     (by decide) (by decide)⟩

/-- C8: the mismatch detector is total and pure — every loan receives exactly
one of the four fixed tiers, and the tier depends only on the current-lender
fit and the best-match fit. -/
theorem reallocation_tier_total_pure :
    (∀ l : EngineLoan,
      loanReallocationTier l = ReallocationTier.STRONG ∨
      loanReallocationTier l = ReallocationTier.MODERATE ∨
      loanReallocationTier l = ReallocationTier.MINOR ∨
      loanReallocationTier l = ReallocationTier.NONE) ∧
    (∀ l1 l2 : EngineLoan, l1.currentLenderFit = l2.currentLenderFit →
      l1.bestMatchFit = l2.bestMatchFit →
      loanReallocationTier l1 = loanReallocationTier l2) := by
  constructor
  · intro l
    unfold loanReallocationTier reallocationTierOf
    split_ifs <;> simp
  · intro l1 l2 h1 h2
    unfold loanReallocationTier
    rw [h1, h2]

/-- Witness for C8: two loans with equal fit scores but different ids and
prices receive the same tier. -/
theorem reallocation_tier_total_pure_witness :
    loanReallocationTier ⟨1, 500, 40, 70⟩ = loanReallocationTier ⟨2, 9000, 40, 70⟩ :=
  reallocation_tier_total_pure.2 ⟨1, 500, 40, 70⟩ ⟨2, 9000, 40, 70⟩ rfl rfl

/-- C10 (counterexample): the simulator page can issue a calculate request
with `incoming_loan_id` equal to `outgoing_loan_id`. Selecting loan 5 as the
incoming asset first and then selecting the same loan as the outgoing asset
leaves the stale incoming selection in place, the Run button enabled, and the
posted request carries the same loan on both legs. -/
theorem simulator_equal_ids_reachable :
    ∃ r ∈ (runSim [5, 6] simPageInit
      [SimEvent.selectIncoming (some 5), SimEvent.selectOutgoing (some 5),
       SimEvent.clickRun]).2,
      r.incomingLoanId = some r.outgoingLoanId := by
  decide

/-- C10 (amended): the incoming-asset dropdown filters out the loan selected
as outgoing at the moment of selection, and the Run Simulation button only
fires when an outgoing loan is selected and, off the sale tab, an incoming
loan as well; however, since changing the outgoing selection does not reset a
previously chosen incoming loan, the page can still issue a calculate request
with `incoming_loan_id` equal to `outgoing_loan_id`. -/
theorem simulator_page_guards :
    (∀ (cands : List Nat) (s : SimPageState) (c : Nat)
        (x : SimPageState × Option CalcRequest),
      stepSim cands s (SimEvent.selectIncoming (some c)) = some x →
        some c ≠ s.outgoingLoanId ∧ c ∈ cands) ∧
    (∀ (cands : List Nat) (s s' : SimPageState) (r : CalcRequest),
      stepSim cands s SimEvent.clickRun = some (s', some r) →
        s.outgoingLoanId = some r.outgoingLoanId ∧
        r.transactionType = s.activeTab ∧
        r.incomingLoanId = s.incomingLoanId ∧
        (r.transactionType = TransactionType.sale ∨ r.incomingLoanId ≠ none) ∧
        s' = s) ∧
    (∃ r ∈ (runSim [1, 2] simPageInit
        [SimEvent.selectIncoming (some 2), SimEvent.selectOutgoing (some 2),
         SimEvent.clickRun]).2,
        r.incomingLoanId = some r.outgoingLoanId) := by
  refine ⟨?_, ?_, ?_⟩
  · intro cands s c x h
    simp only [stepSim] at h
    split at h
    · rename_i hg
      exact ⟨hg.2.2, hg.2.1⟩
    · simp at h
  · intro cands s s' r h
    simp only [stepSim] at h
    split at h
    · simp at h
    · rename_i outId hout
      split at h
      · rename_i hg
        injection h with h2
        injection h2 with h3 h4
        injection h4 with h5
        subst h3
        subst h5
        exact ⟨hout, rfl, rfl, hg, rfl⟩
      · simp at h
  · decide

/-- Witness for C10: the incoming-dropdown guard applied to a concrete
selection from the initial page state. -/
theorem simulator_page_guards_witness :
    some 5 ≠ simPageInit.outgoingLoanId ∧ 5 ∈ [5] :=
  simulator_page_guards.1 [5] simPageInit 5
    ({ simPageInit with incomingLoanId := some 5 }, none) (by rfl)

end SME
